import Mathlib

/-!
Verification of the "Synchro" video-analysis SaaS repository's two
systems-flavoured components, as described in its specification:

* the in-memory password-change rate limiter
  (`checkPasswordChangeRateLimit`, `recordPasswordChangeAttempt`,
  `requirePasswordChangeRateLimit`, `resetPasswordChangeRateLimit`);
* the video-analysis orchestrator
  (`analyzeVideoInBackground`, `performAIAnalysis`,
  `uploadFramesToStorage`, `analyzeFramesWithGemini`, `extractJson`).

Each section embeds the corresponding TypeScript source shallowly:
timestamps become `Int` milliseconds, the module-level `Map` store becomes
an association list threaded through the functions, `Date.now()` becomes
an explicit `now` argument, thrown exceptions become `Except` errors, and
external services (Supabase storage, the Gemini API, ffmpeg) become
explicit outcome parameters.
-/

set_option autoImplicit false

/-! ## Rate limiter (password change)

Shallow embedding of the password-change rate limiter module.
The module keeps a `Map<string, RateLimitEntry>`; we model it as an
association list from user ids to entries, threaded explicitly.  The
opportunistic 10%-probability cleanup inside `check` is modelled by a
boolean `doCleanup` argument standing for the random draw.
-/

/-- `interface RateLimitEntry { count: number; firstAttempt: number }`. -/
structure RateLimitEntry where
  count : Nat
  firstAttempt : Int
deriving DecidableEq, Repr

/-- The module-level `rateLimitStore : Map<string, RateLimitEntry>`. -/
abbrev RateLimitStore := List (String × RateLimitEntry)

/-- `const MAX_ATTEMPTS = 5`. -/
def MAX_ATTEMPTS : Nat := 5

/-- `const WINDOW_MS = 15 * 60 * 1000`. -/
def WINDOW_MS : Int := 15 * 60 * 1000

/-- `rateLimitStore.get(userId)` (first binding wins, as in a `Map`). -/
def storeGet (userId : String) : RateLimitStore → Option RateLimitEntry
  | [] => none
  | (k, v) :: rest => if k = userId then some v else storeGet userId rest

/-- `rateLimitStore.set(userId, e)`: replace the existing binding in place
or append a fresh one. -/
def storeSet (userId : String) (e : RateLimitEntry) : RateLimitStore → RateLimitStore
  | [] => [(userId, e)]
  | (k, v) :: rest =>
    if k = userId then (k, e) :: rest else (k, v) :: storeSet userId e rest

/-- `rateLimitStore.delete(userId)` (a `Map` holds at most one binding per
key, so deleting every binding for the key is the same operation). -/
def storeDelete (userId : String) (s : RateLimitStore) : RateLimitStore :=
  s.filter (fun p => !(decide (p.1 = userId)))

/-- `cleanupExpiredEntries()`: delete every entry whose age exceeds the
window. -/
def cleanupExpiredEntries (now : Int) (s : RateLimitStore) : RateLimitStore :=
  s.filter (fun p => !(decide (now - p.2.firstAttempt > WINDOW_MS)))

/-- Return type of `checkPasswordChangeRateLimit`. -/
structure CheckResult where
  allowed : Bool
  remainingAttempts : Nat
  resetTime : Int
deriving DecidableEq, Repr

/-- `checkPasswordChangeRateLimit(userId)`.  `doCleanup` stands for the
`Math.random() < 0.1` draw; `now` for `Date.now()`.  Returns the result
together with the (possibly cleaned-up) store. -/
def checkPasswordChangeRateLimit (doCleanup : Bool) (now : Int) (userId : String)
    (s : RateLimitStore) : CheckResult × RateLimitStore :=
  let s1 := if doCleanup then cleanupExpiredEntries now s else s
  match storeGet userId s1 with
  | none => (⟨true, MAX_ATTEMPTS, now + WINDOW_MS⟩, s1)
  | some e =>
    if now - e.firstAttempt > WINDOW_MS then
      (⟨true, MAX_ATTEMPTS, now + WINDOW_MS⟩, s1)
    else
      (⟨decide (e.count < MAX_ATTEMPTS), MAX_ATTEMPTS - e.count,
        e.firstAttempt + WINDOW_MS⟩, s1)

/-- `recordPasswordChangeAttempt(userId)`. -/
def recordPasswordChangeAttempt (now : Int) (userId : String)
    (s : RateLimitStore) : RateLimitStore :=
  match storeGet userId s with
  | none => storeSet userId ⟨1, now⟩ s
  | some e =>
    if now - e.firstAttempt > WINDOW_MS then storeSet userId ⟨1, now⟩ s
    else storeSet userId ⟨e.count + 1, e.firstAttempt⟩ s

/-- Payload of the `429 Too Many Requests` `data(...)` thrown by the
guard: the ISO reset time, the interpolated minutes-until-reset value and
the literal `remainingAttempts: 0` field. -/
structure RateLimited where
  resetTime : Int
  minutesUntilReset : Int
  remainingAttempts : Nat
deriving DecidableEq, Repr

/-- `Math.ceil(a / 60000)` on integer milliseconds. -/
def ceilDivMinute (a : Int) : Int := -((-a).fdiv 60000)

/-- `requirePasswordChangeRateLimit(userId)`: check, throw the 429 payload
when not allowed, otherwise record the attempt.  Returns the outcome
together with the store left by the call (the cleanup inside `check`
happens before a throw). -/
def requirePasswordChangeRateLimit (doCleanup : Bool) (now : Int) (userId : String)
    (s : RateLimitStore) : Except RateLimited Unit × RateLimitStore :=
  let r := checkPasswordChangeRateLimit doCleanup now userId s
  if r.1.allowed then
    (Except.ok (), recordPasswordChangeAttempt now userId r.2)
  else
    (Except.error ⟨r.1.resetTime, ceilDivMinute (r.1.resetTime - now), 0⟩, r.2)

/-- `resetPasswordChangeRateLimit(userId)`. -/
def resetPasswordChangeRateLimit (userId : String) (s : RateLimitStore) : RateLimitStore :=
  storeDelete userId s

/-! ## JSON extraction (`extractJson` in gemini.server.ts)

The Gemini response post-processing parses the model's text as JSON,
first from a ```json fenced code block, then from the substring between
the first opening brace and the last closing brace, then from the whole
text.  We embed JavaScript's `JSON.parse` as a fuel-indexed recursive
descent parser over `List Char` producing `JsVal` (numbers are kept as a
decimal mantissa and a power-of-ten exponent, so no floating point is
involved), and the regular-expression plumbing of `extractJson` as
explicit scanning functions.  `Option` stands for thrown parse errors.
-/

/-- A parsed JSON value, as produced by `JSON.parse`. -/
inductive JsVal where
  | null
  | bool (b : Bool)
  | num (mantissa : Int) (exp10 : Int)
  | str (s : List Char)
  | arr (items : List JsVal)
  | obj (fields : List (List Char × JsVal))

/-- The opening-brace character. -/
def lbrace : Char := Char.ofNat 123

/-- The closing-brace character. -/
def rbrace : Char := Char.ofNat 125

/-- The backtick character. -/
def btick : Char := Char.ofNat 96

/-- The four JSON insignificant-whitespace characters. -/
def isJsonWs (c : Char) : Bool := c == ' ' || c == '\t' || c == '\n' || c == '\r'

/-- Value of a hexadecimal digit, for `\uXXXX` escapes. -/
def hexDigitVal (c : Char) : Option Nat :=
  let n := c.toNat
  if 48 ≤ n ∧ n ≤ 57 then some (n - 48)
  else if 97 ≤ n ∧ n ≤ 102 then some (n - 87)
  else if 65 ≤ n ∧ n ≤ 70 then some (n - 55)
  else none

/-- Parse the body of a JSON string after its opening quote, returning
the decoded characters and the remaining input.  Surrogate halves in
`\uXXXX` escapes (no scalar-value counterpart) are rejected. -/
def parseStringBody : List Char → Option (List Char × List Char)
  | [] => none
  | c :: cs =>
    if c == '"' then some ([], cs)
    else if c == '\\' then
      match cs with
      | [] => none
      | e :: cs2 =>
        if e == '"' then (parseStringBody cs2).map (fun p => ('"' :: p.1, p.2))
        else if e == '\\' then (parseStringBody cs2).map (fun p => ('\\' :: p.1, p.2))
        else if e == '/' then (parseStringBody cs2).map (fun p => ('/' :: p.1, p.2))
        else if e == 'b' then (parseStringBody cs2).map (fun p => (Char.ofNat 8 :: p.1, p.2))
        else if e == 'f' then (parseStringBody cs2).map (fun p => (Char.ofNat 12 :: p.1, p.2))
        else if e == 'n' then (parseStringBody cs2).map (fun p => ('\n' :: p.1, p.2))
        else if e == 'r' then (parseStringBody cs2).map (fun p => ('\r' :: p.1, p.2))
        else if e == 't' then (parseStringBody cs2).map (fun p => ('\t' :: p.1, p.2))
        else if e == 'u' then
          match cs2 with
          | h1 :: h2 :: h3 :: h4 :: cs3 =>
            match hexDigitVal h1, hexDigitVal h2, hexDigitVal h3, hexDigitVal h4 with
            | some a, some b, some c2, some d =>
              let n := ((a * 16 + b) * 16 + c2) * 16 + d
              if 55296 ≤ n ∧ n ≤ 57343 then none
              else (parseStringBody cs3).map (fun p => (Char.ofNat n :: p.1, p.2))
            | _, _, _, _ => none
          | _ => none
        else none
    else if c.toNat < 32 then none
    else (parseStringBody cs).map (fun p => (c :: p.1, p.2))

/-- Decimal value of a digit string. -/
def digitsVal (l : List Char) : Nat :=
  l.foldl (fun acc c => acc * 10 + (c.toNat - 48)) 0

/-- Parse a JSON number token (`-?(0|[1-9][0-9]*)(\.[0-9]+)?([eE][+-]?[0-9]+)?`)
into a mantissa and a power-of-ten exponent. -/
def parseNum (l : List Char) : Option (JsVal × List Char) :=
  let negAndRest : Bool × List Char :=
    match l with
    | c :: r => if c == '-' then (true, r) else (false, c :: r)
    | [] => (false, [])
  let neg := negAndRest.1
  let l1 := negAndRest.2
  let intPart := l1.takeWhile Char.isDigit
  let r1 := l1.dropWhile Char.isDigit
  if intPart.isEmpty then none
  else if 1 < intPart.length ∧ intPart.headD ' ' == '0' then none
  else
    let fracState : List Char × List Char × Bool :=
      match r1 with
      | c :: rr =>
        if c == '.' then
          (rr.takeWhile Char.isDigit, rr.dropWhile Char.isDigit,
            !(rr.takeWhile Char.isDigit).isEmpty)
        else ([], c :: rr, true)
      | [] => ([], [], true)
    let fracPart := fracState.1
    let r2 := fracState.2.1
    if !fracState.2.2 then none
    else
      let expState : Int × List Char × Bool :=
        match r2 with
        | c :: rr =>
          if c == 'e' || c == 'E' then
            let signAndRest : Int × List Char :=
              match rr with
              | d :: rrr =>
                if d == '+' then (1, rrr)
                else if d == '-' then (-1, rrr)
                else (1, d :: rrr)
              | [] => (1, [])
            let eds := signAndRest.2.takeWhile Char.isDigit
            if eds.isEmpty then (0, r2, false)
            else (signAndRest.1 * (digitsVal eds : Int),
              signAndRest.2.dropWhile Char.isDigit, true)
          else (0, c :: rr, true)
        | [] => (0, [], true)
      if !expState.2.2 then none
      else
        let mant0 : Int := (digitsVal (intPart ++ fracPart) : Nat)
        let mant := if neg then -mant0 else mant0
        some (JsVal.num mant (expState.1 - (fracPart.length : Int)), expState.2.1)

mutual

/-- `JSON.parse` value parser (fuel-indexed recursive descent). -/
def parseVal : Nat → List Char → Option (JsVal × List Char)
  | 0, _ => none
  | fuel + 1, l0 =>
    match l0.dropWhile isJsonWs with
    | [] => none
    | 'n' :: 'u' :: 'l' :: 'l' :: r => some (JsVal.null, r)
    | 't' :: 'r' :: 'u' :: 'e' :: r => some (JsVal.bool true, r)
    | 'f' :: 'a' :: 'l' :: 's' :: 'e' :: r => some (JsVal.bool false, r)
    | '"' :: r => (parseStringBody r).map (fun p => (JsVal.str p.1, p.2))
    | c :: r =>
      if c == lbrace then
        match r.dropWhile isJsonWs with
        | d :: r2 =>
          if d == rbrace then some (JsVal.obj [], r2) else parseMembers fuel r []
        | [] => none
      else if c == '[' then
        match r.dropWhile isJsonWs with
        | d :: r2 =>
          if d == ']' then some (JsVal.arr [], r2) else parseItems fuel r []
        | [] => none
      else parseNum (c :: r)

/-- Comma-separated array items after the opening bracket. -/
def parseItems : Nat → List Char → List JsVal → Option (JsVal × List Char)
  | 0, _, _ => none
  | fuel + 1, l, acc =>
    match parseVal fuel l with
    | none => none
    | some (v, r) =>
      match r.dropWhile isJsonWs with
      | c :: r2 =>
        if c == ',' then parseItems fuel r2 (acc ++ [v])
        else if c == ']' then some (JsVal.arr (acc ++ [v]), r2)
        else none
      | [] => none

/-- Comma-separated object members after the opening brace. -/
def parseMembers : Nat → List Char → List (List Char × JsVal) →
    Option (JsVal × List Char)
  | 0, _, _ => none
  | fuel + 1, l, acc =>
    match l.dropWhile isJsonWs with
    | '"' :: r =>
      match parseStringBody r with
      | none => none
      | some (key, r2) =>
        match r2.dropWhile isJsonWs with
        | d :: r3 =>
          if d == ':' then
            match parseVal fuel r3 with
            | none => none
            | some (v, r4) =>
              match r4.dropWhile isJsonWs with
              | e :: r5 =>
                if e == ',' then parseMembers fuel r5 (acc ++ [(key, v)])
                else if e == rbrace then
                  some (JsVal.obj (acc ++ [(key, v)]), r5)
                else none
              | [] => none
          else none
        | [] => none
    | _ => none

end

/-- `JSON.parse(text)`: parse one value and require only whitespace after
it.  The fuel `2 * length + 4` dominates the recursion depth, which grows
by at most two per consumed character. -/
def jsonParse (l : List Char) : Option JsVal :=
  match parseVal (2 * l.length + 4) l with
  | some (v, r) => if (r.dropWhile isJsonWs).isEmpty then some v else none
  | none => none

/-- Match of `/```json/i` at the head of the input: three backticks then
`json` in any letter case. -/
def isJsonFenceAt (l : List Char) : Bool :=
  match l with
  | a :: b :: c :: d :: e :: f :: g :: _ =>
    a == btick && b == btick && c == btick &&
    (d == 'j' || d == 'J') && (e == 's' || e == 'S') &&
    (f == 'o' || f == 'O') && (g == 'n' || g == 'N')
  | _ => false

/-- The closing fence pattern (three backticks). -/
def fenceCloseChars : List Char := [btick, btick, btick]

/-- Index of the first occurrence of three consecutive backticks. -/
def findClose : List Char → Option Nat
  | [] => none
  | c :: cs =>
    if fenceCloseChars.isPrefixOf (c :: cs) then some 0
    else (findClose cs).map (· + 1)

/-- `text.match(/```json[\s\S]*?```/i)` followed by stripping the opening
`<three backticks>json` and every remaining triple backtick: returns the
content strictly between the first complete fenced block's delimiters.
The lazy quantifier makes the block end at the first following triple
backtick; a position whose opening has no later closing fence cannot be
the start of a match, so scanning continues past it. -/
def findFenced : List Char → Option (List Char)
  | [] => none
  | c :: cs =>
    if isJsonFenceAt (c :: cs) then
      match findClose (cs.drop 6) with
      | some k => some ((cs.drop 6).take k)
      | none => findFenced cs
    else findFenced cs

/-- `text.indexOf(x)` for a single character. -/
def firstIdxOf (x : Char) : List Char → Option Nat
  | [] => none
  | c :: cs => if c == x then some 0 else (firstIdxOf x cs).map (· + 1)

/-- `text.lastIndexOf(x)` for a single character. -/
def lastIdxOf (x : Char) (l : List Char) : Option Nat :=
  match firstIdxOf x l.reverse with
  | some k => some (l.length - 1 - k)
  | none => none

/-- `extractJson(text)`: fenced-block content if a ```json fence is
present, else the slice from the first opening brace through the last
closing brace if both exist, else the whole text — parsed as JSON.
`none` is the caught-and-rethrown "Failed to parse JSON from Gemini
response" error. -/
def extractJson (text : List Char) : Option JsVal :=
  match findFenced text with
  | some inner => jsonParse inner
  | none =>
    match firstIdxOf lbrace text, lastIdxOf rbrace text with
    | some i, some j => jsonParse ((text.drop i).take (j + 1 - i))
    | _, _ => jsonParse text

/-! ## Gemini model fallback (`analyzeFramesWithGemini`)

The frame-analysis call tries a fixed list of model names in order.  A
single attempt is `generateContent` followed by `extractJson` and the
`steps`-array format check, all inside one `try`; the `catch` records the
error as `lastError`, rethrows immediately when `error.status` is truthy
and not 503, and otherwise waits 1000 ms (when the failing model is not
at the last `indexOf` position) before the next model.  We model one
attempt by an oracle `attempt : model name → ModelAttempt` and return the
final outcome together with the list of performed waits. -/

/-- Last-binding lookup of an object field, matching `JSON.parse`'s
duplicate-key behaviour (the last duplicate wins). -/
def lookupField (key : List Char) (fields : List (List Char × JsVal)) : Option JsVal :=
  match fields.reverse.find? (fun p => p.1 == key) with
  | some p => some p.2
  | none => none

/-- The `!json?.steps || !Array.isArray(json.steps)` check: succeeds
exactly when the parsed value is an object whose `steps` field is an
array (an array is truthy, every non-array value either fails
`Array.isArray` or is already falsy). -/
def stepsField (v : JsVal) : Option (List JsVal) :=
  match v with
  | JsVal.obj fs =>
    match lookupField ("steps".toList) fs with
    | some (JsVal.arr items) => some items
    | _ => none
  | _ => none

/-- A JavaScript error value as observed by the fallback loop: its
optional numeric `status` field (`none` also stands for a falsy status)
and its message. -/
structure JsError where
  status : Option Nat
  msg : List Char
deriving DecidableEq, Repr

/-- Outcome of `model.generateContent` for one model: the response text,
or a thrown error. -/
inductive ModelAttempt where
  | ok (text : List Char)
  | err (e : JsError)

/-- `new Error('Failed to parse JSON from Gemini response')`. -/
def parseFailMsg : List Char := "Failed to parse JSON from Gemini response".toList

/-- `new Error('Invalid JSON format from Gemini')`. -/
def invalidFormatMsg : List Char := "Invalid JSON format from Gemini".toList

/-- `new Error('All Gemini models failed')`. -/
def allFailedMsg : List Char := "All Gemini models failed".toList

/-- One iteration body of the fallback loop's `try` block: call the
model, extract JSON from the response text, require an array-valued
`steps` field. -/
def tryModel (attempt : List Char → ModelAttempt) (m : List Char) :
    Except JsError (List JsVal) :=
  match attempt m with
  | ModelAttempt.err e => Except.error e
  | ModelAttempt.ok text =>
    match extractJson text with
    | none => Except.error ⟨none, parseFailMsg⟩
    | some v =>
      match stepsField v with
      | none => Except.error ⟨none, invalidFormatMsg⟩
      | some steps => Except.ok steps

/-- `error.status && error.status !== 503`: rethrow (abort the loop)
exactly when the status is truthy and differs from 503. -/
def abortsFallback (e : JsError) : Bool :=
  match e.status with
  | some s => decide (s ≠ 0) && decide (s ≠ 503)
  | none => false

/-- `models.indexOf(name)` (first index; every iterated name is in the
list, so the `-1` case cannot occur). -/
def listIdxOf (x : List Char) : List (List Char) → Nat
  | [] => 0
  | y :: ys => if y == x then 0 else listIdxOf x ys + 1

/-- The `for (const modelName of models)` fallback loop, carrying
`lastError`; also returns the list of backoff waits (in ms) performed. -/
def runModelFallback (attempt : List Char → ModelAttempt)
    (allModels : List (List Char)) :
    List (List Char) → Option JsError → Except JsError (List JsVal) × List Nat
  | [], lastErr => (Except.error (lastErr.getD ⟨none, allFailedMsg⟩), [])
  | m :: rest, _ =>
    match tryModel attempt m with
    | Except.ok steps => (Except.ok steps, [])
    | Except.error e =>
      if abortsFallback e then (Except.error e, [])
      else
        let ds : List Nat :=
          if listIdxOf m allModels < allModels.length - 1 then [1000] else []
        let r := runModelFallback attempt allModels rest (some e)
        (r.1, ds ++ r.2)

/-- The model preference list of the first gemini.server.ts variant. -/
def geminiModelsA (optModel : Option (List Char)) : List (List Char) :=
  [optModel.getD ("gemini-2.0-flash".toList), "gemini-flash-latest".toList,
    "gemini-2.5-flash".toList]

/-- The model preference list of the second gemini.server.ts variant. -/
def geminiModelsB (optModel : Option (List Char)) : List (List Char) :=
  [optModel.getD ("gemini-2.5-flash".toList), "gemini-2.5-flash-lite".toList,
    "gemini-2.0-flash".toList]

/-- `analyzeFramesWithGemini`: fail when `GEMINI_API_KEY` is unset, else
run the fallback loop over the model list. -/
def analyzeFramesWithGemini (apiKey : Option (List Char))
    (attempt : List Char → ModelAttempt) (models : List (List Char)) :
    Except JsError (List JsVal) × List Nat :=
  match apiKey with
  | none => (Except.error ⟨none, ("GEMINI_API_KEY is not set".toList)⟩, [])
  | some _ => runModelFallback attempt models models none

/-- Attempt oracle for the C2 counterexample: the first model throws an
error with no `status` field (a non-"service unavailable" error class),
the others answer with a well-formed `steps` response. -/
def statuslessAttempt (m : List Char) : ModelAttempt :=
  if m = "modelA".toList then ModelAttempt.err ⟨none, "network failure".toList⟩
  else ModelAttempt.ok ("\x7b\"steps\":[]\x7d".toList)

/-- Attempt oracle for the C2 witness: the first two models of the second
variant's list fail with HTTP 503, the third answers correctly. -/
def unavailableAttempt (m : List Char) : ModelAttempt :=
  if m = "gemini-2.5-flash".toList then
    ModelAttempt.err ⟨some 503, "Service Unavailable".toList⟩
  else if m = "gemini-2.5-flash-lite".toList then
    ModelAttempt.err ⟨some 503, "Service Unavailable".toList⟩
  else ModelAttempt.ok ("\x7b\"steps\":[]\x7d".toList)

/-! ## Video analysis orchestrator (video-analyzer.server.ts)

`analyzeVideoInBackground` runs download → frame extraction → Gemini
analysis → screenshot upload → merge & persist, reflecting the outcome in
the `work_videos` / `work_workflows` rows.  External stages become
explicit outcome parameters; the database writes become a trace of
`DbOp`s folded over a one-job database view, so the order of the writes
is part of the model. -/

/-- `type: "click" | "input" | "navigate" | "wait" | "decision"`. -/
inductive GeminiStepType where
  | click
  | input
  | navigate
  | wait
  | decision
deriving DecidableEq, Repr

/-- `GeminiStep` as declared in gemini.server.ts. -/
structure GeminiStep where
  type : GeminiStepType
  action : List Char
  description : List Char
  confidence : Nat
deriving Repr

/-- `VideoAnalysisResult` as declared in video-analyzer.server.ts. -/
structure VideoAnalysisResult where
  type : GeminiStepType
  action : List Char
  description : List Char
  confidence : Nat
  timestamp_seconds : Option Nat
  screenshot_url : Option (List Char)
deriving Repr

/-- `list.map` with the element index, starting at `k`. -/
def mapIdxFrom {α β : Type} (f : Nat → α → β) : Nat → List α → List β
  | _, [] => []
  | i, a :: as => f i a :: mapIdxFrom f (i + 1) as

/-- Decimal digits of a natural number. -/
def natChars (n : Nat) : List Char := Nat.toDigits 10 n

/-- The deterministic public URL built for an uploaded frame:
`${SUPABASE_URL}/storage/v1/object/public/work-videos/screenshots/${workflowId}/workflow_${workflowId}_step_${i+1}.jpg`. -/
def publicScreenshotUrl (supabaseUrl : List Char) (workflowId : Nat) (i : Nat) : List Char :=
  supabaseUrl ++ "/storage/v1/object/public/work-videos/screenshots/".toList
    ++ natChars workflowId ++ "/workflow_".toList ++ natChars workflowId
    ++ "_step_".toList ++ natChars (i + 1) ++ ".jpg".toList

/-- `uploadFramesToStorage`: one entry per frame, in frame order; a frame
whose read or upload fails yields `null` (`none`) at its index and the
loop continues.  `uploadOk i` abstracts the success of reading and
uploading frame `i`. -/
def uploadFramesToStorage (uploadOk : Nat → Bool) (workflowId : Nat)
    (supabaseUrl : List Char) (framePaths : List (List Char)) :
    List (Option (List Char)) :=
  (List.range framePaths.length).map
    (fun i => if uploadOk i then some (publicScreenshotUrl supabaseUrl workflowId i)
      else none)

/-- `screenshotUrls.filter((url) => url !== null && url !== "")`. -/
def validScreenshotUrls (urls : List (Option (List Char))) : List (List Char) :=
  urls.filterMap (fun o =>
    match o with
    | some u => if u = [] then none else some u
    | none => none)

/-- The merge step of `performAIAnalysis`: map each Gemini step, by its
array index, to the entry of the *filtered* URL list at that index
(`validUrls[index] || undefined`). -/
def mergeStepsWithScreenshots (steps : List GeminiStep)
    (urls : List (Option (List Char))) : List VideoAnalysisResult :=
  let validUrls := validScreenshotUrls urls
  mapIdxFrom (fun i s =>
    { type := s.type, action := s.action, description := s.description,
      confidence := s.confidence, timestamp_seconds := none,
      screenshot_url :=
        match validUrls.get? i with
        | some u => if u = [] then none else some u
        | none => none }) 0 steps

/-- The "no storage path" guard message. -/
def noPathMsg : List Char := "비디오 저장 경로가 없습니다. 분석을 진행할 수 없습니다.".toList

/-- The zero-extracted-frames message. -/
def zeroFramesMsg : List Char := "프레임 추출에 실패했습니다. 영상 파일을 확인해주세요.".toList

/-- The catch-all wrapper prefix of `performAIAnalysis`. -/
def aiFailPre : List Char := "AI 분석 실패: ".toList

/-- The catch block of `performAIAnalysis`: any error from the pipeline
stages is rethrown with the `AI 분석 실패:` prefix. -/
def wrapAIError {α : Type} (r : Except (List Char) α) : Except (List Char) α :=
  match r with
  | Except.error m => Except.error (aiFailPre ++ m)
  | Except.ok a => Except.ok a

/-- `performAIAnalysis(storagePath, workflowId)`: path guard, then
download → extract → zero-frame guard → Gemini → upload → merge, with
the stage outcomes passed explicitly (`download`, `extracted`, `gemini`)
and every stage error wrapped by the catch block. -/
def performAIAnalysis (storagePath : Option (List Char))
    (download : Except (List Char) Unit)
    (extracted : Except (List Char) (List (List Char)))
    (gemini : Except (List Char) (List GeminiStep))
    (uploadOk : Nat → Bool) (workflowId : Nat) (supabaseUrl : List Char) :
    Except (List Char) (List VideoAnalysisResult) :=
  match storagePath with
  | none => Except.error noPathMsg
  | some p =>
    if p = [] then Except.error noPathMsg
    else
      wrapAIError
        (match download with
        | Except.error e => Except.error e
        | Except.ok _ =>
          match extracted with
          | Except.error e => Except.error e
          | Except.ok paths =>
            if paths.length = 0 then Except.error zeroFramesMsg
            else
              match gemini with
              | Except.error e => Except.error e
              | Except.ok steps =>
                Except.ok (mergeStepsWithScreenshots steps
                  (uploadFramesToStorage uploadOk workflowId supabaseUrl paths)))

/-- `work_videos.status`. -/
inductive VideoStatus where
  | uploaded
  | processing
  | completed
  | error
deriving DecidableEq, Repr

/-- `work_workflows.status`. -/
inductive WorkflowStatus where
  | pending
  | analyzing
  | analyzed
deriving DecidableEq, Repr

/-- The columns of the `work_videos` row the job touches. -/
structure VideoRow where
  status : VideoStatus
  progress : Nat
  errorMessage : Option (List Char)
  completedAt : Option Int
deriving Repr

/-- The columns of the `work_workflows` row the job touches. -/
structure WorkflowRow where
  status : WorkflowStatus
  completedAt : Option Int
deriving Repr

/-- One `work_analysis_steps` row. -/
structure StepRow where
  workflow_id : Nat
  sequence_no : Nat
  type : GeminiStepType
  action : List Char
  description : List Char
  timestamp_label : Option (List Char)
  timestamp_seconds : Option Nat
  confidence : Nat
  screenshot_url : Option (List Char)
deriving Repr

/-- The database state owned by one video/workflow job. -/
structure AnalysisDb where
  video : VideoRow
  workflow : WorkflowRow
  steps : List StepRow
deriving Repr

/-- `String.padStart(2, "0")`. -/
def padTwo (l : List Char) : List Char :=
  if 2 ≤ l.length then l else List.replicate (2 - l.length) '0' ++ l

/-- `formatTimestamp(seconds)`: `MM:SS` with unbounded minutes. -/
def formatTimestamp (seconds : Nat) : List Char :=
  padTwo (natChars (seconds / 60)) ++ ':' :: padTwo (natChars (seconds % 60))

/-- The step-row construction of `analyzeVideoInBackground` step 4: note
the JavaScript truthiness test `result.timestamp_seconds ? ... : null`
maps a present-but-zero timestamp to a `null` label. -/
def mkStepRows (workflowId : Nat) (results : List VideoAnalysisResult) :
    List StepRow :=
  mapIdxFrom (fun i r =>
    { workflow_id := workflowId,
      sequence_no := i + 1,
      type := r.type, action := r.action, description := r.description,
      timestamp_label :=
        match r.timestamp_seconds with
        | some t => if t = 0 then none else some (formatTimestamp t)
        | none => none,
      timestamp_seconds := r.timestamp_seconds,
      confidence := r.confidence,
      screenshot_url := r.screenshot_url }) 0 results

/-- `new Error("Video not found")`. -/
def videoNotFoundMsg : List Char := "Video not found".toList

/-- One database write performed by the background job. -/
inductive DbOp where
  | setVideoProcessing
  | insertSteps (rows : List StepRow)
  | setWorkflowAnalyzed
  | setVideoCompleted
  | setWorkflowPending
  | setVideoError (msg : List Char)
deriving Repr

/-- The ordered database writes of one background run:
status←processing/progress←10 first; on success the bulk step insert
immediately followed by the workflow and video completion updates; on any
caught error the workflow revert to `pending` then the video error
update. -/
def jobTrace (videoFound : Bool)
    (analysis : Except (List Char) (List VideoAnalysisResult))
    (workflowId : Nat) : List DbOp :=
  DbOp.setVideoProcessing ::
    (if videoFound then
      match analysis with
      | Except.ok results =>
        [DbOp.insertSteps (mkStepRows workflowId results),
          DbOp.setWorkflowAnalyzed, DbOp.setVideoCompleted]
      | Except.error msg =>
        [DbOp.setWorkflowPending, DbOp.setVideoError msg]
    else [DbOp.setWorkflowPending, DbOp.setVideoError videoNotFoundMsg])

/-- Effect of one database write. -/
def applyDbOp (now : Int) (db : AnalysisDb) : DbOp → AnalysisDb
  | DbOp.setVideoProcessing =>
    { db with video := { db.video with status := VideoStatus.processing, progress := 10 } }
  | DbOp.insertSteps rows => { db with steps := db.steps ++ rows }
  | DbOp.setWorkflowAnalyzed =>
    { db with workflow := { status := WorkflowStatus.analyzed, completedAt := some now } }
  | DbOp.setVideoCompleted =>
    { db with video :=
        { db.video with
            status := VideoStatus.completed
            progress := 100
            completedAt := some now } }
  | DbOp.setWorkflowPending =>
    { db with workflow := { db.workflow with status := WorkflowStatus.pending } }
  | DbOp.setVideoError msg =>
    { db with video :=
        { db.video with
            status := VideoStatus.error
            errorMessage := some msg } }

/-- `analyzeVideoInBackground(videoId, workflowId)`: the final database
state after the detached task runs, given whether the video row was found
and the outcome of `performAIAnalysis`. -/
def analyzeVideoInBackground (db : AnalysisDb) (videoFound : Bool)
    (analysis : Except (List Char) (List VideoAnalysisResult))
    (workflowId : Nat) (now : Int) : AnalysisDb :=
  (jobTrace videoFound analysis workflowId).foldl (applyDbOp now) db

/-- `Except.isOk` as a plain function. -/
def exceptIsOk {ε α : Type} : Except ε α → Bool
  | Except.ok _ => true
  | Except.error _ => false

theorem MAX_ATTEMPTS_eq : MAX_ATTEMPTS = 5 := rfl

theorem WINDOW_MS_eq : WINDOW_MS = 900000 := rfl

/-! Basic store lemmas. -/

theorem storeGet_storeDelete (userId : String) (s : RateLimitStore) :
    storeGet userId (storeDelete userId s) = none := by
  induction s with
  | nil => rfl
  | cons p rest ih =>
    by_cases h : p.1 = userId
    · simp [storeDelete, List.filter, h] at ih ⊢
      exact ih
    · simp [storeDelete, List.filter, h] at ih ⊢
      simp [storeGet, h, ih]

theorem storeGet_cleanup_none (now : Int) (userId : String) (s : RateLimitStore)
    (h : storeGet userId s = none) :
    storeGet userId (cleanupExpiredEntries now s) = none := by
  induction s with
  | nil => rfl
  | cons p rest ih =>
    simp only [storeGet] at h
    by_cases hk : p.1 = userId
    · simp [hk] at h
    · simp [hk] at h
      by_cases hexp : now - p.2.firstAttempt > WINDOW_MS
      · simp [cleanupExpiredEntries, List.filter, hexp] at ih ⊢
        exact ih h
      · simp [cleanupExpiredEntries, List.filter, hexp] at ih ⊢
        simp [storeGet, hk]
        exact ih h

theorem storeGet_cleanup_live (now : Int) (userId : String) (s : RateLimitStore)
    (e : RateLimitEntry) (h : storeGet userId s = some e)
    (hl : ¬ now - e.firstAttempt > WINDOW_MS) :
    storeGet userId (cleanupExpiredEntries now s) = some e := by
  induction s with
  | nil => simp [storeGet] at h
  | cons p rest ih =>
    simp only [storeGet] at h
    by_cases hk : p.1 = userId
    · simp [hk] at h
      subst h
      simp [cleanupExpiredEntries, List.filter, hl]
      simp [storeGet, hk]
    · simp [hk] at h
      by_cases hexp : now - p.2.firstAttempt > WINDOW_MS
      · simp [cleanupExpiredEntries, List.filter, hexp] at ih ⊢
        exact ih h
      · simp [cleanupExpiredEntries, List.filter, hexp] at ih ⊢
        simp [storeGet, hk]
        exact ih h

theorem storeGet_storeSet_self (userId : String) (e : RateLimitEntry) (s : RateLimitStore) :
    storeGet userId (storeSet userId e s) = some e := by
  induction s with
  | nil => simp [storeSet, storeGet]
  | cons p rest ih =>
    by_cases hk : p.1 = userId
    · simp [storeSet, hk, storeGet]
    · simp [storeSet, hk, storeGet, ih]

theorem storeGet_eq_none_of_not_mem (u : String) (s : RateLimitStore)
    (h : u ∉ s.map Prod.fst) : storeGet u s = none := by
  induction s with
  | nil => rfl
  | cons p rest ih =>
    simp only [List.map_cons, List.mem_cons, not_or] at h
    have hk : ¬ p.1 = u := fun hh => h.1 hh.symm
    simp [storeGet, hk]
    exact ih h.2

theorem storeGet_cleanup_dead (now : Int) (u : String) (s : RateLimitStore)
    (e : RateLimitEntry) (hnd : (s.map Prod.fst).Nodup)
    (h : storeGet u s = some e) (hexp : now - e.firstAttempt > WINDOW_MS) :
    storeGet u (cleanupExpiredEntries now s) = none := by
  induction s with
  | nil => simp [storeGet] at h
  | cons p rest ih =>
    simp only [List.map_cons, List.nodup_cons] at hnd
    simp only [storeGet] at h
    by_cases hk : p.1 = u
    · simp [hk] at h
      subst h
      have hrest : storeGet u rest = none :=
        storeGet_eq_none_of_not_mem u rest (by rw [← hk]; exact hnd.1)
      simp [cleanupExpiredEntries, List.filter, hexp]
      exact storeGet_cleanup_none now u rest hrest
    · simp [hk] at h
      by_cases hx : now - p.2.firstAttempt > WINDOW_MS
      · simp [cleanupExpiredEntries, List.filter, hx] at ih ⊢
        exact ih hnd.2 h
      · simp [cleanupExpiredEntries, List.filter, hx] at ih ⊢
        simp [storeGet, hk]
        exact ih hnd.2 h

/-! ### Claim theorems for the rate limiter -/

/-- C8: for every actor and every prior state of the rate-limit store,
`reset(actor)` followed immediately by `check(actor)` returns
`allowed = true` and `remaining = N` (and `resetAt = now + W`): reset
deletes the actor's entry, restoring the full allowance. -/
theorem reset_then_check_restores_allowance (doCleanup : Bool) (now : Int)
    (userId : String) (s : RateLimitStore) :
    (checkPasswordChangeRateLimit doCleanup now userId
        (resetPasswordChangeRateLimit userId s)).1
      = ⟨true, MAX_ATTEMPTS, now + WINDOW_MS⟩ := by
  have h1 : storeGet userId (resetPasswordChangeRateLimit userId s) = none :=
    storeGet_storeDelete userId s
  cases doCleanup with
  | false => simp [checkPasswordChangeRateLimit, h1]
  | true =>
    simp [checkPasswordChangeRateLimit,
      storeGet_cleanup_none now userId _ h1]

/-- C5: branch behaviour of `check`.  (1) If the actor's entry is absent,
`check` returns `allowed = true`, `remaining = N`, `resetAt = now + W`
and still has no entry for the actor afterwards (it is read-only for the
actor).  (2) If the entry is present but its age exceeds `W`, the same
fresh-window result is returned (stated for a duplicate-free store, the
invariant of the JavaScript `Map`).  (3) Otherwise `check` returns
`allowed = (count < N)`, `remaining = max(0, N - count)` (natural
subtraction), `resetAt = firstAttempt + W`.  (4) An attempt recorded at
`t0` followed by a clock advance past `W` yields
`allowed = true, remaining = N`. -/
theorem check_branch_behaviour :
    (∀ (doCleanup : Bool) (now : Int) (u : String) (s : RateLimitStore),
      storeGet u s = none →
        (checkPasswordChangeRateLimit doCleanup now u s).1
            = ⟨true, MAX_ATTEMPTS, now + WINDOW_MS⟩ ∧
          storeGet u (checkPasswordChangeRateLimit doCleanup now u s).2 = none)
    ∧ (∀ (doCleanup : Bool) (now : Int) (u : String) (s : RateLimitStore)
        (e : RateLimitEntry), (s.map Prod.fst).Nodup →
        storeGet u s = some e → now - e.firstAttempt > WINDOW_MS →
        (checkPasswordChangeRateLimit doCleanup now u s).1
          = ⟨true, MAX_ATTEMPTS, now + WINDOW_MS⟩)
    ∧ (∀ (doCleanup : Bool) (now : Int) (u : String) (s : RateLimitStore)
        (e : RateLimitEntry),
        storeGet u s = some e → ¬ now - e.firstAttempt > WINDOW_MS →
        (checkPasswordChangeRateLimit doCleanup now u s).1
          = ⟨decide (e.count < MAX_ATTEMPTS), MAX_ATTEMPTS - e.count,
              e.firstAttempt + WINDOW_MS⟩)
    ∧ (∀ (doCleanup : Bool) (t0 now : Int) (u : String),
        now - t0 > WINDOW_MS →
        (checkPasswordChangeRateLimit doCleanup now u
            (recordPasswordChangeAttempt t0 u [])).1
          = ⟨true, MAX_ATTEMPTS, now + WINDOW_MS⟩) := by
  refine ⟨?_, ?_, ?_, ?_⟩
  · intro doCleanup now u s hget
    cases doCleanup with
    | false => simp [checkPasswordChangeRateLimit, hget]
    | true =>
      have h1 := storeGet_cleanup_none now u s hget
      simp [checkPasswordChangeRateLimit, h1]
  · intro doCleanup now u s e hnd hget hexp
    cases doCleanup with
    | false => simp [checkPasswordChangeRateLimit, hget, hexp]
    | true =>
      have h1 := storeGet_cleanup_dead now u s e hnd hget hexp
      simp [checkPasswordChangeRateLimit, h1]
  · intro doCleanup now u s e hget hlive
    cases doCleanup with
    | false => simp [checkPasswordChangeRateLimit, hget, hlive]
    | true =>
      have h1 := storeGet_cleanup_live now u s e hget hlive
      simp [checkPasswordChangeRateLimit, h1, hlive]
  · intro doCleanup t0 now u hadv
    have hrec : recordPasswordChangeAttempt t0 u [] = [(u, ⟨1, t0⟩)] := by
      simp [recordPasswordChangeAttempt, storeGet, storeSet]
    have hget : storeGet u [(u, (⟨1, t0⟩ : RateLimitEntry))] = some ⟨1, t0⟩ := by
      simp [storeGet]
    cases doCleanup with
    | false => simp [checkPasswordChangeRateLimit, hrec, hget, hadv]
    | true =>
      rw [hrec]
      have h1 : cleanupExpiredEntries now [(u, (⟨1, t0⟩ : RateLimitEntry))] = [] := by
        simp [cleanupExpiredEntries, List.filter, hadv]
      simp [checkPasswordChangeRateLimit, h1, storeGet]

/-- C5 witness: an entry recorded at time 0 and checked at time 900001
(just past the 15-minute window) yields the fresh-window answer. -/
theorem check_branch_behaviour_witness :
    ((900001 : Int) - 0 > WINDOW_MS) ∧
    (checkPasswordChangeRateLimit true 900001 "alice"
        (recordPasswordChangeAttempt 0 "alice" [])).1
      = ⟨true, MAX_ATTEMPTS, 900001 + WINDOW_MS⟩ :=
  ⟨by decide, check_branch_behaviour.2.2.2 true 0 900001 "alice" (by decide)⟩

theorem guard_blocked_of_full_entry (doCleanup : Bool) (now : Int) (u : String)
    (s : RateLimitStore) (e : RateLimitEntry)
    (hget : storeGet u s = some e)
    (hlive : ¬ now - e.firstAttempt > WINDOW_MS)
    (hcount : MAX_ATTEMPTS ≤ e.count) :
    (requirePasswordChangeRateLimit doCleanup now u s).1
        = Except.error ⟨e.firstAttempt + WINDOW_MS,
            ceilDivMinute (e.firstAttempt + WINDOW_MS - now), 0⟩ ∧
      storeGet u (requirePasswordChangeRateLimit doCleanup now u s).2 = some e := by
  have hallow : decide (e.count < MAX_ATTEMPTS) = false := by
    simp [Nat.not_lt.mpr hcount]
  cases doCleanup with
  | false =>
    simp [requirePasswordChangeRateLimit, checkPasswordChangeRateLimit,
      hget, hlive, hallow]
  | true =>
    have h1 := storeGet_cleanup_live now u s e hget hlive
    simp [requirePasswordChangeRateLimit, checkPasswordChangeRateLimit,
      h1, hlive, hallow]

/-- C9: for every actor whose unexpired entry has `count ≥ N`, a call to
`guard` raises the 429 payload without recording an attempt: the entry is
left unchanged by the blocked call, and the reported `resetAt` stays fixed
at `firstAttempt + W`, so repeated blocked attempts never extend the
lockout window. -/
theorem blocked_guard_preserves_entry (doCleanup : Bool) (now : Int) (u : String)
    (s : RateLimitStore) (e : RateLimitEntry)
    (hget : storeGet u s = some e)
    (hlive : ¬ now - e.firstAttempt > WINDOW_MS)
    (hcount : MAX_ATTEMPTS ≤ e.count) :
    (requirePasswordChangeRateLimit doCleanup now u s).1
        = Except.error ⟨e.firstAttempt + WINDOW_MS,
            ceilDivMinute (e.firstAttempt + WINDOW_MS - now), 0⟩ ∧
      storeGet u (requirePasswordChangeRateLimit doCleanup now u s).2 = some e :=
  guard_blocked_of_full_entry doCleanup now u s e hget hlive hcount

/-- C9 witness: a blocked guard call at time 10 on a store whose entry for
`"bob"` has `count = 5`, `firstAttempt = 0`. -/
theorem blocked_guard_preserves_entry_witness :
    (requirePasswordChangeRateLimit true 10 "bob" [("bob", ⟨5, 0⟩)]).1
        = Except.error ⟨(0 : Int) + WINDOW_MS,
            ceilDivMinute ((0 : Int) + WINDOW_MS - 10), 0⟩ ∧
      storeGet "bob" (requirePasswordChangeRateLimit true 10 "bob"
          [("bob", ⟨5, 0⟩)]).2 = some ⟨5, 0⟩ :=
  blocked_guard_preserves_entry true 10 "bob" [("bob", ⟨5, 0⟩)] ⟨5, 0⟩
    (by decide) (by decide) (by decide)

/-- C4: after exactly `N = 5` attempts recorded within one window `W` for
an actor, `check` returns `allowed = false`, and the `(N+1)`th attempt
made through `guard` raises the `RateLimited` 429 payload (carrying the
reset instant `firstAttempt + W` and the minutes-until-reset value)
instead of returning normally. -/
theorem five_attempts_then_guard_blocks (doCleanup : Bool) (u : String)
    (t1 t2 t3 t4 t5 now : Int)
    (_h12 : t1 ≤ t2) (h23 : t2 ≤ t3) (h34 : t3 ≤ t4) (h45 : t4 ≤ t5)
    (hw : t5 - t1 ≤ WINDOW_MS) (hnow : now - t1 ≤ WINDOW_MS) :
    (checkPasswordChangeRateLimit doCleanup now u
        (recordPasswordChangeAttempt t5 u (recordPasswordChangeAttempt t4 u
          (recordPasswordChangeAttempt t3 u (recordPasswordChangeAttempt t2 u
            (recordPasswordChangeAttempt t1 u [])))))).1.allowed = false ∧
    (requirePasswordChangeRateLimit doCleanup now u
        (recordPasswordChangeAttempt t5 u (recordPasswordChangeAttempt t4 u
          (recordPasswordChangeAttempt t3 u (recordPasswordChangeAttempt t2 u
            (recordPasswordChangeAttempt t1 u [])))))).1
      = Except.error ⟨t1 + WINDOW_MS,
          ceilDivMinute (t1 + WINDOW_MS - now), 0⟩ := by
  have hrec : ∀ (t : Int) (c : Nat), ¬ t - t1 > WINDOW_MS →
      recordPasswordChangeAttempt t u [(u, ⟨c, t1⟩)] = [(u, ⟨c + 1, t1⟩)] := by
    intro t c h
    simp [recordPasswordChangeAttempt, storeGet, storeSet, h]
  have h1 : recordPasswordChangeAttempt t1 u [] = [(u, ⟨1, t1⟩)] := by
    simp [recordPasswordChangeAttempt, storeGet, storeSet]
  have hs5 : recordPasswordChangeAttempt t5 u (recordPasswordChangeAttempt t4 u
      (recordPasswordChangeAttempt t3 u (recordPasswordChangeAttempt t2 u
        (recordPasswordChangeAttempt t1 u [])))) = [(u, ⟨5, t1⟩)] := by
    rw [h1, hrec t2 1 (by omega), hrec t3 2 (by omega),
      hrec t4 3 (by omega), hrec t5 4 (by omega)]
  rw [hs5]
  have hget5 : storeGet u [(u, (⟨5, t1⟩ : RateLimitEntry))] = some ⟨5, t1⟩ := by
    simp [storeGet]
  have hlive : ¬ now - (⟨5, t1⟩ : RateLimitEntry).firstAttempt > WINDOW_MS := by
    simp only [RateLimitEntry.mk.injEq]
    omega
  constructor
  · cases doCleanup with
    | false => simp [checkPasswordChangeRateLimit, hget5, hlive, MAX_ATTEMPTS]
    | true =>
      have hc := storeGet_cleanup_live now u _ _ hget5 hlive
      simp [checkPasswordChangeRateLimit, hc, hlive, MAX_ATTEMPTS]
  · have hblock := guard_blocked_of_full_entry doCleanup now u
      [(u, ⟨5, t1⟩)] ⟨5, t1⟩ hget5 hlive (by simp [MAX_ATTEMPTS])
    exact hblock.1

/-- C4 witness: five attempts at times 0..4 for `"carol"`, then a check
and a guarded sixth attempt at time 10. -/
theorem five_attempts_then_guard_blocks_witness :
    (checkPasswordChangeRateLimit false 10 "carol"
        (recordPasswordChangeAttempt 4 "carol" (recordPasswordChangeAttempt 3 "carol"
          (recordPasswordChangeAttempt 2 "carol" (recordPasswordChangeAttempt 1 "carol"
            (recordPasswordChangeAttempt 0 "carol" [])))))).1.allowed = false ∧
    (requirePasswordChangeRateLimit false 10 "carol"
        (recordPasswordChangeAttempt 4 "carol" (recordPasswordChangeAttempt 3 "carol"
          (recordPasswordChangeAttempt 2 "carol" (recordPasswordChangeAttempt 1 "carol"
            (recordPasswordChangeAttempt 0 "carol" [])))))).1
      = Except.error ⟨(0 : Int) + WINDOW_MS,
          ceilDivMinute ((0 : Int) + WINDOW_MS - 10), 0⟩ :=
  five_attempts_then_guard_blocks false "carol" 0 1 2 3 4 10
    (by decide) (by decide) (by decide) (by decide) (by decide) (by decide)

/-! Lemmas about the fence scanner and index functions. -/

theorem isJsonFenceAt_cons_false (c : Char) (cs : List Char) (h : ¬ c = btick) :
    isJsonFenceAt (c :: cs) = false := by
  rcases cs with _ | ⟨c2, _ | ⟨c3, _ | ⟨c4, _ | ⟨c5, _ | ⟨c6, _ | ⟨c7, rest⟩⟩⟩⟩⟩⟩ <;>
    simp [isJsonFenceAt, beq_false_of_ne h]

theorem findFenced_eq_none (t : List Char) (h : ∀ c ∈ t, ¬ c = btick) :
    findFenced t = none := by
  induction t with
  | nil => rfl
  | cons c cs ih =>
    have hc : ¬ c = btick := h c (List.mem_cons_self c cs)
    simp [findFenced, isJsonFenceAt_cons_false c cs hc]
    exact ih (fun x hx => h x (List.mem_cons_of_mem c hx))

theorem findClose_append (mid post : List Char) (h : ∀ c ∈ mid, ¬ c = btick) :
    findClose (mid ++ btick :: btick :: btick :: post) = some mid.length := by
  induction mid with
  | nil =>
    simp [findClose, fenceCloseChars, List.isPrefixOf]
  | cons c cs ih =>
    have hc : ¬ c = btick := h c (List.mem_cons_self c cs)
    have hpre : fenceCloseChars.isPrefixOf
        (c :: (cs ++ btick :: btick :: btick :: post)) = false := by
      simp [fenceCloseChars, List.isPrefixOf,
        beq_false_of_ne (fun hh => hc hh.symm)]
    rw [List.cons_append, findClose, hpre]
    simp only [Bool.false_eq_true, if_false]
    rw [ih (fun x hx => h x (List.mem_cons_of_mem c hx))]
    simp

theorem findFenced_cons_fence (mid post : List Char)
    (hmid : ∀ c ∈ mid, ¬ c = btick) :
    findFenced (btick :: btick :: btick :: 'j' :: 's' :: 'o' :: 'n' ::
      (mid ++ btick :: btick :: btick :: post)) = some mid := by
  have hat : isJsonFenceAt (btick :: btick :: btick :: 'j' :: 's' :: 'o' :: 'n' ::
      (mid ++ btick :: btick :: btick :: post)) = true := rfl
  rw [findFenced, if_pos hat]
  show (match findClose (mid ++ btick :: btick :: btick :: post) with
    | some k => some ((mid ++ btick :: btick :: btick :: post).take k)
    | none => findFenced (btick :: btick :: 'j' :: 's' :: 'o' :: 'n' ::
        (mid ++ btick :: btick :: btick :: post))) = some mid
  rw [findClose_append mid post hmid]
  simp [List.take_left]

theorem findFenced_append (pre mid post : List Char)
    (hpre : ∀ c ∈ pre, ¬ c = btick) (hmid : ∀ c ∈ mid, ¬ c = btick) :
    findFenced (pre ++ btick :: btick :: btick :: 'j' :: 's' :: 'o' :: 'n' ::
      (mid ++ btick :: btick :: btick :: post)) = some mid := by
  induction pre with
  | nil => simpa using findFenced_cons_fence mid post hmid
  | cons c cs ih =>
    have hc : ¬ c = btick := hpre c (List.mem_cons_self c cs)
    rw [List.cons_append, findFenced]
    rw [if_neg (by simp [isJsonFenceAt_cons_false _ _ hc])]
    exact ih (fun x hx => hpre x (List.mem_cons_of_mem c hx))

theorem firstIdxOf_append (x : Char) (a b : List Char)
    (ha : ∀ c ∈ a, ¬ c = x) (hb : b.head? = some x) :
    firstIdxOf x (a ++ b) = some a.length := by
  induction a with
  | nil =>
    rcases b with _ | ⟨c, bs⟩
    · simp at hb
    · simp at hb
      subst hb
      simp [firstIdxOf]
  | cons c cs ih =>
    have hc : ¬ c = x := ha c (List.mem_cons_self c cs)
    rw [List.cons_append, firstIdxOf]
    rw [if_neg (by simp [beq_false_of_ne hc])]
    rw [ih (fun y hy => ha y (List.mem_cons_of_mem c hy))]
    simp

theorem extractJson_fenced_decomp (pre mid post : List Char)
    (hpre : ∀ c ∈ pre, ¬ c = btick) (hmid : ∀ c ∈ mid, ¬ c = btick) :
    extractJson (pre ++ btick :: btick :: btick :: 'j' :: 's' :: 'o' :: 'n' ::
      (mid ++ btick :: btick :: btick :: post)) = jsonParse mid := by
  have h := findFenced_append pre mid post hpre hmid
  simp [extractJson, h]

theorem extractJson_prose (p1 core p2 : List Char) (v : JsVal)
    (hb1 : ∀ c ∈ p1, ¬ c = btick) (hbc : ∀ c ∈ core, ¬ c = btick)
    (hb2 : ∀ c ∈ p2, ¬ c = btick)
    (hlb : ∀ c ∈ p1, ¬ c = lbrace) (hrb : ∀ c ∈ p2, ¬ c = rbrace)
    (hhead : core.head? = some lbrace) (hlast : core.getLast? = some rbrace)
    (hparse : jsonParse core = some v) :
    extractJson (p1 ++ (core ++ p2)) = some v := by
  rcases core with _ | ⟨a, as⟩
  · simp at hhead
  · simp at hhead
    subst hhead
    have hfen : findFenced (p1 ++ (lbrace :: as ++ p2)) = none := by
      apply findFenced_eq_none
      intro c hc
      rcases List.mem_append.mp hc with h1 | h2
      · exact hb1 c h1
      rcases List.mem_append.mp h2 with h3 | h4
      · exact hbc c h3
      · exact hb2 c h4
    have hfirst : firstIdxOf lbrace (p1 ++ (lbrace :: as ++ p2)) = some p1.length := by
      apply firstIdxOf_append lbrace p1 (lbrace :: as ++ p2) hlb
      rfl
    have hrev : (lbrace :: as).reverse.head? = some rbrace := by
      rw [List.head?_reverse]; exact hlast
    rcases hr : (lbrace :: as).reverse with _ | ⟨r0, rs⟩
    · rw [hr] at hrev; simp at hrev
    rw [hr] at hrev
    simp at hrev
    subst hrev
    have hrevt : (p1 ++ (lbrace :: as ++ p2)).reverse
        = p2.reverse ++ (rbrace :: (rs ++ p1.reverse)) := by
      rw [List.reverse_append, List.reverse_append, hr, List.append_assoc,
        List.cons_append]
    have hfirstrev : firstIdxOf rbrace ((p1 ++ (lbrace :: as ++ p2)).reverse)
        = some p2.length := by
      rw [hrevt]
      have := firstIdxOf_append rbrace p2.reverse (rbrace :: (rs ++ p1.reverse))
        (fun c hc => hrb c (List.mem_reverse.mp hc)) rfl
      simpa using this
    have hlen : (p1 ++ (lbrace :: as ++ p2)).length
        = p1.length + as.length + 1 + p2.length := by
      simp [List.length_append, List.length_cons]
      omega
    have hlastidx : lastIdxOf rbrace (p1 ++ (lbrace :: as ++ p2))
        = some (p1.length + as.length) := by
      rw [lastIdxOf, hfirstrev]
      have harith : (p1 ++ (lbrace :: as ++ p2)).length - 1 - p2.length
          = p1.length + as.length := by
        rw [hlen]; omega
      show some ((p1 ++ (lbrace :: as ++ p2)).length - 1 - p2.length)
        = some (p1.length + as.length)
      rw [harith]
    have hdrop : (p1 ++ (lbrace :: as ++ p2)).drop p1.length = lbrace :: as ++ p2 := by
      exact List.drop_left p1 _
    have htakeidx : p1.length + as.length + 1 - p1.length = (lbrace :: as).length := by
      simp [List.length_cons]
      omega
    have htake : ((lbrace :: as) ++ p2).take (lbrace :: as).length = lbrace :: as :=
      List.take_left _ _
    simp only [extractJson, hfen, hfirst, hlastidx]
    rw [htakeidx, hdrop, htake]
    exact hparse

/-- C3 counterexample: the text `ok {"steps":[]} and }` is a JSON object
with a `steps` array surrounded by prose, yet `extractJson` fails on it:
the brace-span fallback slices from the first opening brace to the *last*
closing brace, which swallows the trailing prose brace, so `JSON.parse`
throws.  (First conjunct: the embedded object itself is valid JSON.) -/
theorem json_extraction_roundtrip_cx :
    jsonParse ("\x7b\"steps\":[]\x7d".toList)
      = some (JsVal.obj [("steps".toList, JsVal.arr [])]) ∧
    extractJson ("ok \x7b\"steps\":[]\x7d and \x7d".toList) = none := ⟨rfl, rfl⟩

/-- C3 (amended): the extraction routine recovers the embedded JSON value
in all three forms, provided the text is benign for the routine's textual
scanning: (1) fenced form — the payload and the text before the fence
contain no backtick; (2) bare form — the whole text is a backtick-free
JSON object text; (3) prose form — the prose contains no backtick, the
prose before the object contains no opening brace and the prose after it
no closing brace. -/
theorem json_extraction_three_forms :
    (∀ (pre mid post : List Char) (v : JsVal),
      (∀ c ∈ pre, ¬ c = btick) → (∀ c ∈ mid, ¬ c = btick) →
      jsonParse mid = some v →
      extractJson (pre ++ btick :: btick :: btick :: 'j' :: 's' :: 'o' :: 'n' ::
        (mid ++ btick :: btick :: btick :: post)) = some v)
    ∧ (∀ (core : List Char) (v : JsVal),
      (∀ c ∈ core, ¬ c = btick) →
      core.head? = some lbrace → core.getLast? = some rbrace →
      jsonParse core = some v → extractJson core = some v)
    ∧ (∀ (p1 core p2 : List Char) (v : JsVal),
      (∀ c ∈ p1, ¬ c = btick) → (∀ c ∈ core, ¬ c = btick) →
      (∀ c ∈ p2, ¬ c = btick) →
      (∀ c ∈ p1, ¬ c = lbrace) → (∀ c ∈ p2, ¬ c = rbrace) →
      core.head? = some lbrace → core.getLast? = some rbrace →
      jsonParse core = some v → extractJson (p1 ++ (core ++ p2)) = some v) := by
  refine ⟨?_, ?_, ?_⟩
  · intro pre mid post v hpre hmid hp
    rw [extractJson_fenced_decomp pre mid post hpre hmid, hp]
  · intro core v hb hh hl hp
    have h := extractJson_prose [] core [] v (by simp) hb (by simp)
      (by simp) (by simp) hh hl hp
    simpa using h
  · exact fun p1 core p2 v hb1 hbc hb2 hlb hrb hh hl hp =>
      extractJson_prose p1 core p2 v hb1 hbc hb2 hlb hrb hh hl hp

/-- C3 witness: a fenced response around `{"steps":[]}` with prose on both
sides is extracted to the embedded object. -/
theorem json_extraction_three_forms_witness :
    extractJson ("Answer: ".toList ++ btick :: btick :: btick :: 'j' :: 's' :: 'o' :: 'n' ::
        ("\x7b\"steps\":[]\x7d".toList ++ btick :: btick :: btick :: " done".toList))
      = some (JsVal.obj [("steps".toList, JsVal.arr [])]) :=
  json_extraction_three_forms.1 ("Answer: ".toList) ("\x7b\"steps\":[]\x7d".toList)
    (" done".toList) (JsVal.obj [("steps".toList, JsVal.arr [])])
    (by decide) (by decide) rfl

/-- C10: when the text contains a ```json fenced code block, `extractJson`
parses only the block's inner content and never falls back to brace-span
or full-text parsing: whenever the fence scanner finds a block, the result
is exactly `JSON.parse` of the inner content, and in particular an invalid
block content makes the whole extraction fail even when the surrounding
text would parse. -/
theorem fenced_block_is_authoritative :
    (∀ (t inner : List Char), findFenced t = some inner →
        extractJson t = jsonParse inner)
    ∧ (∀ (pre mid post : List Char),
        (∀ c ∈ pre, ¬ c = btick) → (∀ c ∈ mid, ¬ c = btick) →
        jsonParse mid = none →
        extractJson (pre ++ btick :: btick :: btick :: 'j' :: 's' :: 'o' :: 'n' ::
          (mid ++ btick :: btick :: btick :: post)) = none) := by
  constructor
  · intro t inner h
    simp [extractJson, h]
  · intro pre mid post hpre hmid hp
    rw [extractJson_fenced_decomp pre mid post hpre hmid, hp]

/-- C10 witness: the text `{"steps":[]} ```json oops ``` ` fails to
extract even though the text before the fence is a parseable JSON object
with a `steps` array. -/
theorem fenced_block_is_authoritative_witness :
    jsonParse (" oops ".toList) = none ∧
    jsonParse ("\x7b\"steps\":[]\x7d".toList)
      = some (JsVal.obj [("steps".toList, JsVal.arr [])]) ∧
    extractJson ("\x7b\"steps\":[]\x7d ".toList ++ btick :: btick :: btick :: 'j' :: 's' :: 'o' :: 'n' ::
        (" oops ".toList ++ btick :: btick :: btick :: [])) = none :=
  ⟨rfl, rfl, fenced_block_is_authoritative.2 ("\x7b\"steps\":[]\x7d ".toList)
    (" oops ".toList) [] (by decide) (by decide) rfl⟩

/-- C2 counterexample: the first model fails with an error that is not a
"service unavailable" class error (it has no status at all), yet the loop
does not abort: it waits 1000 ms and returns the second model's steps.
The guard only rethrows when `error.status` is truthy and not 503, so a
status-less error falls through to the next model. -/
theorem model_fallback_cx :
    tryModel statuslessAttempt ("modelA".toList)
        = Except.error ⟨none, "network failure".toList⟩ ∧
    runModelFallback statuslessAttempt
        ["modelA".toList, "modelB".toList, "modelC".toList]
        ["modelA".toList, "modelB".toList, "modelC".toList] none
      = (Except.ok [], [1000]) := ⟨rfl, rfl⟩

/-- C2 (amended): behaviour of the model-fallback loop.  (1) A failure
whose status is 503 waits 1000 ms (while not at the last `indexOf`
position) and continues with the next model.  (2) A failure whose status
is truthy and not 503 aborts immediately with that error — errors with a
503 status or with no/falsy status instead fall through to the next
model.  (3) Exhausting the list raises the last encountered error.
(4) If on the second variant's fixed list the first two models fail with
503 and the third succeeds, the call returns the steps parsed from the
third model's response. -/
theorem model_fallback_behaviour :
    (∀ (attempt : List Char → ModelAttempt) (allModels : List (List Char))
        (m : List Char) (rest : List (List Char)) (lastErr : Option JsError)
        (e : JsError),
      tryModel attempt m = Except.error e → e.status = some 503 →
      listIdxOf m allModels < allModels.length - 1 →
      runModelFallback attempt allModels (m :: rest) lastErr
        = ((runModelFallback attempt allModels rest (some e)).1,
            1000 :: (runModelFallback attempt allModels rest (some e)).2))
    ∧ (∀ (attempt : List Char → ModelAttempt) (allModels : List (List Char))
        (m : List Char) (rest : List (List Char)) (lastErr : Option JsError)
        (e : JsError) (s : Nat),
      tryModel attempt m = Except.error e → e.status = some s → s ≠ 0 → s ≠ 503 →
      runModelFallback attempt allModels (m :: rest) lastErr
        = (Except.error e, []))
    ∧ (∀ (attempt : List Char → ModelAttempt) (allModels : List (List Char))
        (e : JsError),
      runModelFallback attempt allModels [] (some e) = (Except.error e, []))
    ∧ (∀ (k m1 m2 m3 : List Char) (attempt : List Char → ModelAttempt)
        (e1 e2 : JsError) (steps : List JsVal),
      tryModel attempt m1 = Except.error e1 → e1.status = some 503 →
      tryModel attempt m2 = Except.error e2 → e2.status = some 503 →
      tryModel attempt m3 = Except.ok steps →
      (analyzeFramesWithGemini (some k) attempt [m1, m2, m3]).1
        = Except.ok steps) := by
  refine ⟨?_, ?_, ?_, ?_⟩
  · intro attempt allModels m rest lastErr e htry hst hidx
    have ha : abortsFallback e = false := by simp [abortsFallback, hst]
    simp [runModelFallback, htry, ha, hidx]
  · intro attempt allModels m rest lastErr e s htry hst hs0 hs503
    have ha : abortsFallback e = true := by simp [abortsFallback, hst, hs0, hs503]
    simp [runModelFallback, htry, ha]
  · intro attempt allModels e
    simp [runModelFallback]
  · intro k m1 m2 m3 attempt e1 e2 steps h1 hs1 h2 hs2 h3
    have ha1 : abortsFallback e1 = false := by simp [abortsFallback, hs1]
    have ha2 : abortsFallback e2 = false := by simp [abortsFallback, hs2]
    simp [analyzeFramesWithGemini, runModelFallback, h1, h2, h3, ha1, ha2]

/-- C2 witness: with the first two models down with 503, the call returns
the steps parsed from the third model's response. -/
theorem model_fallback_behaviour_witness :
    (analyzeFramesWithGemini (some ("key".toList)) unavailableAttempt
        (geminiModelsB none)).1 = Except.ok [] :=
  model_fallback_behaviour.2.2.2 ("key".toList) ("gemini-2.5-flash".toList)
    ("gemini-2.5-flash-lite".toList) ("gemini-2.0-flash".toList)
    unavailableAttempt ⟨some 503, "Service Unavailable".toList⟩
    ⟨some 503, "Service Unavailable".toList⟩ [] rfl rfl rfl rfl rfl

/-! Lemmas for the merge/upload composition. -/

theorem publicScreenshotUrl_ne_nil (supabaseUrl : List Char) (workflowId i : Nat) :
    ¬ publicScreenshotUrl supabaseUrl workflowId i = [] := by
  intro h
  have h2 := (List.append_eq_nil.mp h).2
  exact absurd h2 (by decide)

theorem validUrls_of_upload (uploadOk : Nat → Bool) (workflowId : Nat)
    (supabaseUrl : List Char) (l : List Nat) :
    validScreenshotUrls (l.map (fun i =>
        if uploadOk i then some (publicScreenshotUrl supabaseUrl workflowId i)
        else none))
      = (l.filter uploadOk).map (publicScreenshotUrl supabaseUrl workflowId) := by
  induction l with
  | nil => rfl
  | cons i is ih =>
    by_cases h : uploadOk i
    · simp [validScreenshotUrls, List.filter_cons, h,
        publicScreenshotUrl_ne_nil supabaseUrl workflowId i] at ih ⊢
      exact ih
    · simp [validScreenshotUrls, List.filter_cons, h] at ih ⊢
      exact ih

theorem mapIdxFrom_screenshot (valid : List (List Char))
    (hval : ∀ u ∈ valid, ¬ u = []) (steps : List GeminiStep) : ∀ (k : Nat),
    (mapIdxFrom (fun i s =>
      ({ type := s.type, action := s.action, description := s.description,
         confidence := s.confidence, timestamp_seconds := none,
         screenshot_url :=
           match valid.get? i with
           | some u => if u = [] then none else some u
           | none => none } : VideoAnalysisResult)) k steps).map
        (fun r => r.screenshot_url)
      = (List.range' k steps.length).map (fun i => valid.get? i) := by
  induction steps with
  | nil => intro k; rfl
  | cons s ss ih =>
    intro k
    have hhead : (match valid.get? k with
        | some u => if u = [] then none else some u
        | none => none) = valid.get? k := by
      cases hk : valid.get? k with
      | none => rfl
      | some u =>
        have : ¬ u = [] := hval u (List.get?_mem hk)
        simp [this]
    simp only [List.length_cons]
    rw [List.range'_succ k ss.length 1]
    simp only [mapIdxFrom, List.map_cons, hhead]
    rw [ih (k + 1)]

/-- C1 counterexample: three steps, three frames, the second upload
fails.  The claim predicts screenshot URLs `[frame0, none, frame2]`
(positional correspondence); the code instead compacts the successful
URLs, producing `[frame0, frame2, none]` — the step at the failed index
receives the *next* frame's screenshot and the last step receives none. -/
theorem merge_positional_cx :
    (mergeStepsWithScreenshots
        [⟨GeminiStepType.click, [], [], 90⟩, ⟨GeminiStepType.click, [], [], 90⟩,
          ⟨GeminiStepType.click, [], [], 90⟩]
        (uploadFramesToStorage (fun i => !(i == 1)) 7 ("https://sb".toList)
          ["f0".toList, "f1".toList, "f2".toList])).map (fun r => r.screenshot_url)
      = [some (publicScreenshotUrl ("https://sb".toList) 7 0),
         some (publicScreenshotUrl ("https://sb".toList) 7 2), none]
    ∧ ¬ (mergeStepsWithScreenshots
        [⟨GeminiStepType.click, [], [], 90⟩, ⟨GeminiStepType.click, [], [], 90⟩,
          ⟨GeminiStepType.click, [], [], 90⟩]
        (uploadFramesToStorage (fun i => !(i == 1)) 7 ("https://sb".toList)
          ["f0".toList, "f1".toList, "f2".toList])).map (fun r => r.screenshot_url)
      = [some (publicScreenshotUrl ("https://sb".toList) 7 0), none,
         some (publicScreenshotUrl ("https://sb".toList) 7 2)] := by
  constructor
  · rfl
  · decide

/-- C1 (amended): the merge stage compacts the successful uploads: step
`i` receives the `i`-th successful frame's URL (successful frame indices
taken in frame order), and steps beyond the number of successful uploads
receive no screenshot.  Positional correspondence with the original frame
indices is kept only while every upload succeeds. -/
theorem merge_compacts_successful_urls (steps : List GeminiStep)
    (uploadOk : Nat → Bool) (workflowId : Nat) (supabaseUrl : List Char)
    (framePaths : List (List Char)) :
    (mergeStepsWithScreenshots steps
        (uploadFramesToStorage uploadOk workflowId supabaseUrl framePaths)).map
        (fun r => r.screenshot_url)
      = (List.range steps.length).map (fun i =>
          (((List.range framePaths.length).filter uploadOk).map
            (publicScreenshotUrl supabaseUrl workflowId)).get? i) := by
  have hvalid : validScreenshotUrls
      (uploadFramesToStorage uploadOk workflowId supabaseUrl framePaths)
      = ((List.range framePaths.length).filter uploadOk).map
          (publicScreenshotUrl supabaseUrl workflowId) :=
    validUrls_of_upload uploadOk workflowId supabaseUrl _
  have hne : ∀ u ∈ ((List.range framePaths.length).filter uploadOk).map
      (publicScreenshotUrl supabaseUrl workflowId), ¬ u = [] := by
    intro u hu
    rcases List.mem_map.mp hu with ⟨i, _, hi⟩
    rw [← hi]
    exact publicScreenshotUrl_ne_nil supabaseUrl workflowId i
  simp only [mergeStepsWithScreenshots, hvalid]
  rw [mapIdxFrom_screenshot _ hne steps 0, List.range_eq_range' steps.length]

/-- C6: the lifecycle of one triggered job.  (1) The first database write
of every run sets the video to `processing` with `progress = 10`.  (2) On
pipeline success the pair reaches `completed`/`analyzed` with
`progress = 100` and both `completedAt` columns set, the step rows are
appended in one bulk insert, and the write trace is exactly
processing → insert → workflow-analyzed → video-completed, so the insert
happens immediately before the completion transition.  (3) On any
pipeline failure (including the video row missing) the video ends in
`error` with its message set and the workflow is set back to `pending`,
with no steps written.  (4) No other terminal status combination is
reachable. -/
theorem job_lifecycle :
    (∀ (videoFound : Bool) (analysis : Except (List Char) (List VideoAnalysisResult))
        (workflowId : Nat),
      (jobTrace videoFound analysis workflowId).head? = some DbOp.setVideoProcessing)
    ∧ (∀ (db : AnalysisDb) (now : Int),
      (applyDbOp now db DbOp.setVideoProcessing).video.status = VideoStatus.processing
        ∧ (applyDbOp now db DbOp.setVideoProcessing).video.progress = 10)
    ∧ (∀ (db : AnalysisDb) (results : List VideoAnalysisResult)
        (workflowId : Nat) (now : Int),
      (analyzeVideoInBackground db true (Except.ok results) workflowId now).video.status
          = VideoStatus.completed
        ∧ (analyzeVideoInBackground db true (Except.ok results) workflowId now).video.progress
          = 100
        ∧ (analyzeVideoInBackground db true (Except.ok results) workflowId now).video.completedAt
          = some now
        ∧ (analyzeVideoInBackground db true (Except.ok results) workflowId now).workflow.status
          = WorkflowStatus.analyzed
        ∧ (analyzeVideoInBackground db true (Except.ok results) workflowId now).workflow.completedAt
          = some now
        ∧ (analyzeVideoInBackground db true (Except.ok results) workflowId now).steps
          = db.steps ++ mkStepRows workflowId results
        ∧ jobTrace true (Except.ok results) workflowId
          = [DbOp.setVideoProcessing, DbOp.insertSteps (mkStepRows workflowId results),
              DbOp.setWorkflowAnalyzed, DbOp.setVideoCompleted])
    ∧ (∀ (db : AnalysisDb) (msg : List Char) (workflowId : Nat) (now : Int),
      (analyzeVideoInBackground db true (Except.error msg) workflowId now).video.status
          = VideoStatus.error
        ∧ (analyzeVideoInBackground db true (Except.error msg) workflowId now).video.errorMessage
          = some msg
        ∧ (analyzeVideoInBackground db true (Except.error msg) workflowId now).workflow.status
          = WorkflowStatus.pending
        ∧ (analyzeVideoInBackground db true (Except.error msg) workflowId now).steps
          = db.steps)
    ∧ (∀ (db : AnalysisDb) (analysis : Except (List Char) (List VideoAnalysisResult))
        (workflowId : Nat) (now : Int),
      (analyzeVideoInBackground db false analysis workflowId now).video.status
          = VideoStatus.error
        ∧ (analyzeVideoInBackground db false analysis workflowId now).video.errorMessage
          = some videoNotFoundMsg
        ∧ (analyzeVideoInBackground db false analysis workflowId now).workflow.status
          = WorkflowStatus.pending
        ∧ (analyzeVideoInBackground db false analysis workflowId now).steps = db.steps)
    ∧ (∀ (db : AnalysisDb) (videoFound : Bool)
        (analysis : Except (List Char) (List VideoAnalysisResult))
        (workflowId : Nat) (now : Int),
      ((analyzeVideoInBackground db videoFound analysis workflowId now).video.status
            = VideoStatus.completed
          ∧ (analyzeVideoInBackground db videoFound analysis workflowId now).workflow.status
            = WorkflowStatus.analyzed)
        ∨ ((analyzeVideoInBackground db videoFound analysis workflowId now).video.status
            = VideoStatus.error
          ∧ (analyzeVideoInBackground db videoFound analysis workflowId now).workflow.status
            = WorkflowStatus.pending)) := by
  refine ⟨?_, ?_, ?_, ?_, ?_, ?_⟩
  · intro videoFound analysis workflowId
    cases videoFound <;> cases analysis <;> rfl
  · intro db now
    exact ⟨rfl, rfl⟩
  · intro db results workflowId now
    refine ⟨rfl, rfl, rfl, rfl, rfl, ?_, rfl⟩
    simp [analyzeVideoInBackground, jobTrace, applyDbOp]
  · intro db msg workflowId now
    exact ⟨rfl, rfl, rfl, rfl⟩
  · intro db analysis workflowId now
    exact ⟨rfl, rfl, rfl, rfl⟩
  · intro db videoFound analysis workflowId now
    cases videoFound with
    | false => exact Or.inr ⟨rfl, rfl⟩
    | true =>
      cases analysis with
      | ok results => exact Or.inl ⟨rfl, rfl⟩
      | error msg => exact Or.inr ⟨rfl, rfl⟩

theorem performAIAnalysis_download_error (sp : Option (List Char))
    (ex : Except (List Char) (List (List Char)))
    (gm : Except (List Char) (List GeminiStep)) (okf : Nat → Bool)
    (wf : Nat) (url : List Char) (e : List Char) :
    exceptIsOk (performAIAnalysis sp (Except.error e) ex gm okf wf url) = false := by
  rcases sp with _ | p
  · rfl
  · by_cases hp : p = []
    · simp [performAIAnalysis, hp, exceptIsOk]
    · simp [performAIAnalysis, hp, wrapAIError, exceptIsOk]

theorem performAIAnalysis_extract_error (sp : Option (List Char))
    (dl : Except (List Char) Unit)
    (gm : Except (List Char) (List GeminiStep)) (okf : Nat → Bool)
    (wf : Nat) (url : List Char) (e : List Char) :
    exceptIsOk (performAIAnalysis sp dl (Except.error e) gm okf wf url) = false := by
  rcases sp with _ | p
  · rfl
  · by_cases hp : p = []
    · simp [performAIAnalysis, hp, exceptIsOk]
    · rcases dl with ⟨d⟩ | ⟨u⟩
      · simp [performAIAnalysis, hp, wrapAIError, exceptIsOk]
      · simp [performAIAnalysis, hp, wrapAIError, exceptIsOk]

theorem performAIAnalysis_zero_frames (sp : Option (List Char))
    (dl : Except (List Char) Unit)
    (gm : Except (List Char) (List GeminiStep)) (okf : Nat → Bool)
    (wf : Nat) (url : List Char) :
    exceptIsOk (performAIAnalysis sp dl (Except.ok []) gm okf wf url) = false := by
  rcases sp with _ | p
  · rfl
  · by_cases hp : p = []
    · simp [performAIAnalysis, hp, exceptIsOk]
    · rcases dl with ⟨d⟩ | ⟨u⟩
      · simp [performAIAnalysis, hp, wrapAIError, exceptIsOk]
      · simp [performAIAnalysis, hp, wrapAIError, exceptIsOk]

theorem performAIAnalysis_gemini_error (sp : Option (List Char))
    (dl : Except (List Char) Unit)
    (ex : Except (List Char) (List (List Char))) (okf : Nat → Bool)
    (wf : Nat) (url : List Char) (e : List Char) :
    exceptIsOk (performAIAnalysis sp dl ex (Except.error e) okf wf url) = false := by
  rcases sp with _ | p
  · rfl
  · by_cases hp : p = []
    · simp [performAIAnalysis, hp, exceptIsOk]
    · rcases dl with ⟨d⟩ | ⟨u⟩
      · simp [performAIAnalysis, hp, wrapAIError, exceptIsOk]
      · rcases ex with ⟨e2⟩ | ⟨paths⟩
        · simp [performAIAnalysis, hp, wrapAIError, exceptIsOk]
        · by_cases hl : paths.length = 0
          · simp [performAIAnalysis, hp, hl, wrapAIError, exceptIsOk]
          · simp [performAIAnalysis, hp, hl, wrapAIError, exceptIsOk]

/-- C7: steps are persisted only when every analysis stage succeeds.
(1) With a valid path and a successful download, zero extracted frames
raise the wrapped extraction error.  (2)–(5) A failing download, a
failing extraction, zero frames, or a failing Gemini call each make
`performAIAnalysis` fail, whatever the other inputs.  (6) Whenever the
analysis outcome is an error the job writes zero step rows and the video
ends in `error` status.  (7) In particular the zero-frame run, composed
end to end, leaves the step table untouched and the video in `error`. -/
theorem failed_stages_persist_no_steps :
    (∀ (p : List Char) (gm : Except (List Char) (List GeminiStep))
        (okf : Nat → Bool) (wf : Nat) (url : List Char),
      ¬ p = [] →
      performAIAnalysis (some p) (Except.ok ()) (Except.ok []) gm okf wf url
        = Except.error (aiFailPre ++ zeroFramesMsg))
    ∧ (∀ sp ex gm okf wf url e,
      exceptIsOk (performAIAnalysis sp (Except.error e) ex gm okf wf url) = false)
    ∧ (∀ sp dl gm okf wf url e,
      exceptIsOk (performAIAnalysis sp dl (Except.error e) gm okf wf url) = false)
    ∧ (∀ sp dl gm okf wf url,
      exceptIsOk (performAIAnalysis sp dl (Except.ok []) gm okf wf url) = false)
    ∧ (∀ sp dl ex okf wf url e,
      exceptIsOk (performAIAnalysis sp dl ex (Except.error e) okf wf url) = false)
    ∧ (∀ (db : AnalysisDb) (videoFound : Bool) (msg : List Char)
        (workflowId : Nat) (now : Int),
      (analyzeVideoInBackground db videoFound (Except.error msg) workflowId now).steps
          = db.steps
        ∧ (analyzeVideoInBackground db videoFound (Except.error msg) workflowId
            now).video.status = VideoStatus.error)
    ∧ (∀ (db : AnalysisDb) (sp : Option (List Char))
        (dl : Except (List Char) Unit) (gm : Except (List Char) (List GeminiStep))
        (okf : Nat → Bool) (wf : Nat) (url : List Char) (now : Int),
      (analyzeVideoInBackground db true
            (performAIAnalysis sp dl (Except.ok []) gm okf wf url) wf now).steps
          = db.steps
        ∧ (analyzeVideoInBackground db true
            (performAIAnalysis sp dl (Except.ok []) gm okf wf url) wf
            now).video.status = VideoStatus.error) := by
  have hzero := performAIAnalysis_zero_frames
  have herr : ∀ (db : AnalysisDb) (videoFound : Bool) (msg : List Char)
      (workflowId : Nat) (now : Int),
      (analyzeVideoInBackground db videoFound (Except.error msg) workflowId now).steps
          = db.steps
        ∧ (analyzeVideoInBackground db videoFound (Except.error msg) workflowId
            now).video.status = VideoStatus.error := by
    intro db videoFound msg workflowId now
    cases videoFound <;> exact ⟨rfl, rfl⟩
  refine ⟨?_, ?_, ?_, ?_, ?_, herr, ?_⟩
  · intro p gm okf wf url hp
    simp [performAIAnalysis, hp, wrapAIError]
  · intro sp ex gm okf wf url e
    exact performAIAnalysis_download_error sp ex gm okf wf url e
  · intro sp dl gm okf wf url e
    exact performAIAnalysis_extract_error sp dl gm okf wf url e
  · intro sp dl gm okf wf url
    exact performAIAnalysis_zero_frames sp dl gm okf wf url
  · intro sp dl ex okf wf url e
    exact performAIAnalysis_gemini_error sp dl ex okf wf url e
  · intro db sp dl gm okf wf url now
    rcases h : performAIAnalysis sp dl (Except.ok []) gm okf wf url with ⟨m⟩ | ⟨res⟩
    · exact herr db true m wf now
    · have h0 := hzero sp dl gm okf wf url
      rw [h] at h0
      simp [exceptIsOk] at h0

/-- C7 witness: three frames extracted would be needed, but the frame
extractor returned an empty list: the pipeline raises the wrapped
extraction error. -/
theorem failed_stages_persist_no_steps_witness :
    performAIAnalysis (some ("videos/v.mp4".toList)) (Except.ok ())
        (Except.ok []) (Except.ok []) (fun _ => true) 1 ("https://sb".toList)
      = Except.error (aiFailPre ++ zeroFramesMsg) :=
  failed_stages_persist_no_steps.1 ("videos/v.mp4".toList) (Except.ok [])
    (fun _ => true) 1 ("https://sb".toList) (by decide)
